import Mathlib

set_option autoImplicit false

/-!
Verification development for the UNS repository: the deployment
orchestration engine (src/deployer.js) and the MintingManager
routing logic (the Solidity source in src/unnamed/part_000).

All definitions are shallow embeddings translated from the source.
External calls made by the Solidity contract (registry, legacy
minter, resolver) are recorded as events; machine integers are
modelled as Nat with explicit reduction mod 2^256 where the source
casts to uint256; keccak256 is an abstract parameter since its
value never matters to the properties below.
-/

namespace UNS

/-! ## JSON values and the deep merge used by saveContractConfig

The deployer persists one JSON document per network and updates it
with a deep merge (lodash.merge, described by the spec as a
field-wise recursive union that preserves existing unrelated
fields). Objects are association lists in source order; a source
key replaces or recursively merges the destination entry, any other
source value overwrites. -/

inductive Json where
  | null
  | str (s : String)
  | num (n : Nat)
  | bool (b : Bool)
  | arr (xs : List Json)
  | obj (fields : List (String × Json))

/-- First value stored under a key in an association list, if any. -/
def lookupField : List (String × Json) → String → Option Json
  | [], _ => none
  | (k2, v) :: rest, k => if k2 = k then some v else lookupField rest k

mutual

/-- Deep merge of a source value into a destination value: objects
merge field-wise, any other source value overwrites. -/
def mergeJson : Json → Json → Json
  | Json.obj d, Json.obj s => Json.obj (mergeFieldsJson d s)
  | _, v => v
termination_by d s => (sizeOf s, 0)

/-- Merge every source field into the destination field list, left to right. -/
def mergeFieldsJson : List (String × Json) → List (String × Json) → List (String × Json)
  | d, [] => d
  | d, (k, v) :: rest => mergeFieldsJson (mergeOne d k v) rest
termination_by d s => (sizeOf s, 1)

/-- Merge a single key/value into a field list: recursively merge the
existing entry for that key, or append the pair when absent. -/
def mergeOne : List (String × Json) → String → Json → List (String × Json)
  | [], k, v => [(k, v)]
  | (k2, v2) :: ds, k, v =>
      if k2 = k then (k2, mergeJson v2 v) :: ds else (k2, v2) :: mergeOne ds k v
termination_by d k v => (sizeOf v + 1, sizeOf d)

end

/-- The patch object written by saveContractConfig:
\x7bcontracts: \x7bname: \x7baddress, implementation, transaction\x7d\x7d\x7d. -/
def contractPatch (name : String) (address implementation transaction : Json) : Json :=
  Json.obj [("contracts", Json.obj [(name,
    Json.obj [("address", address), ("implementation", implementation),
              ("transaction", transaction)])])]

/-- saveContractConfig from src/src/deployer.js: read the current
record, deep-merge the patch for one contract, write back. The file
round-trip is elided; the function returns the written document. -/
def saveContractConfig (config : Json) (name : String)
    (address implementation transaction : Json) : Json :=
  mergeJson config (contractPatch name address implementation transaction)

/-- Field access on a JSON object; none on any other value. -/
def getObjField : Json → String → Option Json
  | Json.obj fs, k => lookupField fs k
  | _, _ => none

/-! ## getNetworkConfig rendering -/

/-- The part of a transaction receipt the deployer reads. -/
structure TxReceipt where
  blockNumber : Nat
deriving DecidableEq

/-- A persisted per-contract record as parsed from the store; every
field may be absent. -/
structure RawContract where
  address : Option String
  implementation : Option String
  legacyAddresses : Option (List String)
  transaction : Option TxReceipt
deriving DecidableEq

/-- A rendered per-contract entry of the external network view. -/
structure NetContract where
  address : Option String
  implementation : Option String
  legacyAddresses : List String
  deploymentBlock : String
deriving DecidableEq

/-- ethers BigNumber.toHexString: 0x-prefixed lowercase hex, padded
to an even number of digits. -/
def bnToHexString (n : Nat) : String :=
  let ds := Nat.toDigits 16 n
  let ds := if ds.length % 2 = 1 then '0' :: ds else ds
  "0x" ++ String.mk ds

/-- One entry of getNetworkConfig: spread of the empty defaults, then
address, implementation and deploymentBlock overridden from the
record. legacyAddresses is taken from the defaults and never
overridden, exactly as in the source. -/
def renderContract (v : RawContract) : NetContract :=
  { address := v.address
    implementation := v.implementation
    legacyAddresses := []
    deploymentBlock :=
      match v.transaction with
      | some t => bnToHexString t.blockNumber
      | none => "0x0" }

/-- getNetworkConfig from src/src/deployer.js: render every stored
contract record and key the result by the single active chain id. -/
def getNetworkConfig (chainId : Nat) (contracts : List (String × RawContract)) :
    List (Nat × List (String × NetContract)) :=
  [(chainId, contracts.map fun p => (p.1, renderContract p.2))]

/-! ## The task runner (Deployer.execute) -/

/-- A registered deployment task; only the tag set matters to task
selection. In src/src/deployer.js the registered order is
deployCNSTask, deployUNSTask, configureCNSTask, upgradeUNSTask. -/
structure DTask where
  tags : List String
deriving DecidableEq

/-- Events of one execute run: for the task at registration index i,
ensureDependencies then run. -/
inductive ExecEvent where
  | deps (i : Nat)
  | run (i : Nat)
deriving DecidableEq

/-- Character-wise lower-casing, the toLowerCase of the source
(ASCII tags; equal to String.toLower, spelled out so that it
evaluates by kernel reduction). -/
def lowerStr (s : String) : String :=
  String.mk (s.data.map Char.toLower)

/-- A task is selected when some requested tag, lower-cased, is a
member of its tag list: tags.some(t => task.tags.includes(t.toLowerCase())). -/
def taskSelected (tags : List String) (t : DTask) : Bool :=
  tags.any fun x => t.tags.contains (lowerStr x)

/-- The loop body of execute, carrying the registration index. -/
def executeEvents : List DTask → Nat → List String → List ExecEvent
  | [], _, _ => []
  | t :: rest, i, tags =>
    if taskSelected tags t then
      ExecEvent.deps i :: ExecEvent.run i :: executeEvents rest (i + 1) tags
    else
      executeEvents rest (i + 1) tags

/-- execute from src/src/deployer.js: tags defaults to the empty
list; tasks run strictly sequentially in registration order, each
selected task first resolving dependencies and then running. -/
def execute (tasks : List DTask) (tags : Option (List String)) : List ExecEvent :=
  executeEvents tasks 0 (tags.getD [])

/-! ## MintingManager (the Solidity contract in src/unnamed/part_000)

Addresses and uint256 words are Nat; keccak256 is an abstract
parameter applied to byte lists; external calls to the UNS registry,
the legacy CryptoMinter and the CryptoResolver are recorded as
events in call order. -/

/-- 2 ^ 256, the modulus of uint256 casts. -/
def UINT256 : Nat := 2 ^ 256

/-- Reserved legacy TLD hash: namehash of crypto, hard-coded in the source. -/
def CRYPTO_TLD : Nat := 0x0f4a10a4f46c288cea365fcf45cccf0e9d901b945b9829ccdb54c10dc3cb7a6f

/-- TLD hash of wallet, hard-coded in the source. -/
def WALLET_TLD : Nat := 0x1e3f482b3363eb4710dae2cb2183128e272eafbe137f686851c1caea32502230

/-- TLD hash of coin, hard-coded in the source. -/
def COIN_TLD : Nat := 0x7674e7282552c15f203b9c4a6025aeaf28176ef7f5451b280f9bada3f8bc98e2

/-- The burn address 0xdead used by initialize. -/
def BURN_ADDR : Nat := 0xdead

/-- Revert reasons raised by MintingManager (and, for the relay and
role guards, by its base contracts). -/
inductive MMError where
  | tldNotValid
  | labelEmpty
  | callerIsNotMinter
  | signerIsNotMinter
  | unsupportedRelayCall
  | alreadyInitialized
deriving DecidableEq

/-- External calls the contract makes, in call order. -/
inductive Ev where
  | unsMint (toAddr tokenId : Nat) (uri : String)
  | unsSafeMint (toAddr tokenId : Nat) (uri : String) (data : List Nat)
  | unsMintWithRecords (toAddr tokenId : Nat) (uri : String) (keys values : List String)
  | unsSafeMintWithRecords (toAddr tokenId : Nat) (uri : String)
      (keys values : List String) (data : List Nat)
  | cryptoMintSLD (toAddr : Nat) (label : String)
  | cryptoSafeMintSLD (toAddr : Nat) (label : String) (data : List Nat)
  | cryptoMintSLDWithResolver (toAddr : Nat) (label : String) (resolver : Nat)
  | cryptoSafeMintSLDWithResolver (toAddr : Nat) (label : String) (resolver : Nat) (data : List Nat)
  | resolverPreconfigure (keys values : List String) (tokenId : Nat)
deriving DecidableEq

/-- Contract storage: the initialized flag of the Initializable base,
the minter role set, the TLD mapping (absent key maps to the empty
string, as Solidity mappings do), the exists view of the UNS
registry, the CryptoResolver address and the contract address. -/
structure MMState where
  initialized : Bool
  minters : List Nat
  tlds : Nat → String
  unsExists : Nat → Bool
  cryptoResolver : Nat
  contractAddr : Nat

section MintingManager

variable (keccak : List Nat → Nat)

/-- UTF-8 bytes of a string, the value of abi.encodePacked(label). -/
def labelBytes (s : String) : List Nat :=
  s.toUTF8.toList.map UInt8.toNat

/-- Big-endian 32-byte encoding of a uint256 word. -/
def be32 (n : Nat) : List Nat :=
  (List.range 32).map fun i => n / 256 ^ (31 - i) % 256

/-- uint256(keccak256(abi.encodePacked(tokenId, keccak256(abi.encodePacked(label))))). -/
def canonicalHash (tokenId : Nat) (label : String) : Nat :=
  keccak (be32 tokenId ++ be32 (keccak (labelBytes label) % UINT256)) % UINT256

/-- _childId: require a non-empty label, then the canonical hash.
Solidity checks bytes(label).length != 0, which holds iff the label
is not the empty string. -/
def _childId (tokenId : Nat) (label : String) : Except MMError Nat :=
  if label = "" then Except.error MMError.labelEmpty
  else Except.ok (canonicalHash keccak tokenId label)

/-- _freeSLDLabel: prepend the reserved prefix to the supplied label. -/
def _freeSLDLabel (label : String) : String :=
  "udtestdev-" ++ label

/-- _uri: label, a dot, then the stored TLD label. -/
def _uri (s : MMState) (tld : Nat) (label : String) : String :=
  label ++ "." ++ s.tlds tld

/-- The onlyMinter modifier of the MinterRole base contract (not
under src/): require the caller to hold the minter role. -/
def onlyMinter (s : MMState) (caller : Nat) : Except MMError Unit :=
  if s.minters.contains caller then Except.ok () else Except.error MMError.callerIsNotMinter

/-- The validTld modifier: require a non-empty stored label for the TLD hash. -/
def validTld (s : MMState) (tld : Nat) : Except MMError Unit :=
  if s.tlds tld = "" then Except.error MMError.tldNotValid else Except.ok ()

/-- _mintSLD: legacy TLD delegates to CryptoMinter.mintSLD(to, label);
any other TLD mints _childId(tld, label) on the UNS registry. -/
def _mintSLD (s : MMState) (toAddr tld : Nat) (label : String) : Except MMError (List Ev) :=
  if tld = CRYPTO_TLD then
    Except.ok [Ev.cryptoMintSLD toAddr label]
  else
    match _childId keccak tld label with
    | Except.error e => Except.error e
    | Except.ok tokenId => Except.ok [Ev.unsMint toAddr tokenId (_uri s tld label)]

/-- _safeMintSLD: as _mintSLD but through the safe variants, carrying data. -/
def _safeMintSLD (s : MMState) (toAddr tld : Nat) (label : String) (data : List Nat) :
    Except MMError (List Ev) :=
  if tld = CRYPTO_TLD then
    Except.ok [Ev.cryptoSafeMintSLD toAddr label data]
  else
    match _childId keccak tld label with
    | Except.error e => Except.error e
    | Except.ok tokenId => Except.ok [Ev.unsSafeMint toAddr tokenId (_uri s tld label) data]

/-- _mintSLDWithRecords: the token id is computed before the branch,
so the empty-label check runs on both paths; the legacy path mints
with the resolver and then preconfigures records when keys are present. -/
def _mintSLDWithRecords (s : MMState) (toAddr tld : Nat) (label : String)
    (keys values : List String) : Except MMError (List Ev) :=
  match _childId keccak tld label with
  | Except.error e => Except.error e
  | Except.ok tokenId =>
    if tld = CRYPTO_TLD then
      Except.ok (Ev.cryptoMintSLDWithResolver toAddr label s.cryptoResolver ::
        (if keys.length > 0 then [Ev.resolverPreconfigure keys values tokenId] else []))
    else
      Except.ok [Ev.unsMintWithRecords toAddr tokenId (_uri s tld label) keys values]

/-- _safeMintSLDWithRecords: as _mintSLDWithRecords through the safe variants. -/
def _safeMintSLDWithRecords (s : MMState) (toAddr tld : Nat) (label : String)
    (keys values : List String) (data : List Nat) : Except MMError (List Ev) :=
  match _childId keccak tld label with
  | Except.error e => Except.error e
  | Except.ok tokenId =>
    if tld = CRYPTO_TLD then
      Except.ok (Ev.cryptoSafeMintSLDWithResolver toAddr label s.cryptoResolver data ::
        (if keys.length > 0 then [Ev.resolverPreconfigure keys values tokenId] else []))
    else
      Except.ok [Ev.unsSafeMintWithRecords toAddr tokenId (_uri s tld label) keys values data]

/-- mintSLD entry point: onlyMinter, then validTld, then _mintSLD. -/
def mintSLD (s : MMState) (caller toAddr tld : Nat) (label : String) :
    Except MMError (List Ev) := do
  onlyMinter s caller
  validTld s tld
  _mintSLD keccak s toAddr tld label

/-- safeMintSLD entry point (three-argument overload, empty data). -/
def safeMintSLD (s : MMState) (caller toAddr tld : Nat) (label : String) :
    Except MMError (List Ev) := do
  onlyMinter s caller
  validTld s tld
  _safeMintSLD keccak s toAddr tld label []

/-- safeMintSLD entry point (overload carrying data). -/
def safeMintSLDData (s : MMState) (caller toAddr tld : Nat) (label : String) (data : List Nat) :
    Except MMError (List Ev) := do
  onlyMinter s caller
  validTld s tld
  _safeMintSLD keccak s toAddr tld label data

/-- mintSLDWithRecords entry point. -/
def mintSLDWithRecords (s : MMState) (caller toAddr tld : Nat) (label : String)
    (keys values : List String) : Except MMError (List Ev) := do
  onlyMinter s caller
  validTld s tld
  _mintSLDWithRecords keccak s toAddr tld label keys values

/-- safeMintSLDWithRecords entry point (no data overload, empty data). -/
def safeMintSLDWithRecords (s : MMState) (caller toAddr tld : Nat) (label : String)
    (keys values : List String) : Except MMError (List Ev) := do
  onlyMinter s caller
  validTld s tld
  _safeMintSLDWithRecords keccak s toAddr tld label keys values []

/-- safeMintSLDWithRecords entry point (overload carrying data). -/
def safeMintSLDWithRecordsData (s : MMState) (caller toAddr tld : Nat) (label : String)
    (keys values : List String) (data : List Nat) : Except MMError (List Ev) := do
  onlyMinter s caller
  validTld s tld
  _safeMintSLDWithRecords keccak s toAddr tld label keys values data

/-- claim entry point: open to any caller, validTld, then _mintSLD to
the caller under the prefixed label. -/
def claim (s : MMState) (caller tld : Nat) (label : String) :
    Except MMError (List Ev) := do
  validTld s tld
  _mintSLD keccak s caller tld (_freeSLDLabel label)

/-- claimTo entry point: as claim with an explicit recipient. -/
def claimTo (s : MMState) (caller toAddr tld : Nat) (label : String) :
    Except MMError (List Ev) := do
  validTld s tld
  _mintSLD keccak s toAddr tld (_freeSLDLabel label)

/-- claimToWithRecords entry point: as claimTo with records. -/
def claimToWithRecords (s : MMState) (caller toAddr tld : Nat) (label : String)
    (keys values : List String) : Except MMError (List Ev) := do
  validTld s tld
  _mintSLDWithRecords keccak s toAddr tld (_freeSLDLabel label) keys values

/-- initialize of MintingManager, named initializeMM since initialize
is a Lean keyword. The initializer guard of the Initializable base
(not under src/) rejects a second call; otherwise the contract grants
itself the minter role, stores the three TLD labels, and mints
wallet and coin to the burn address when their ids do not yet exist
in the UNS registry. -/
def initializeMM (s : MMState) : Except MMError (MMState × List Ev) :=
  if s.initialized then Except.error MMError.alreadyInitialized
  else
    let tlds2 : Nat → String := fun h =>
      if h = CRYPTO_TLD then "crypto"
      else if h = WALLET_TLD then "wallet"
      else if h = COIN_TLD then "coin"
      else s.tlds h
    let evs :=
      (if s.unsExists WALLET_TLD then [] else [Ev.unsMint BURN_ADDR WALLET_TLD "wallet"]) ++
      (if s.unsExists COIN_TLD then [] else [Ev.unsMint BURN_ADDR COIN_TLD "coin"])
    let exists2 : Nat → Bool := fun h =>
      s.unsExists h || h == WALLET_TLD || h == COIN_TLD
    Except.ok
      ({ s with
          initialized := true
          minters := s.contractAddr :: s.minters
          tlds := tlds2
          unsExists := exists2 }, evs)

/-! ### Relay verification -/

/-- Selector of mintSLD(address,uint256,string). -/
def _SIG_MINT : Nat := 0xae2ad903

/-- Selector of safeMintSLD(address,uint256,string). -/
def _SIG_SAFE_MINT : Nat := 0x4c1819e0

/-- Selector of safeMintSLD(address,uint256,string,bytes). -/
def _SIG_SAFE_MINT_DATA : Nat := 0x58839d6b

/-- Selector of mintSLDWithRecords(address,uint256,string,string[],string[]). -/
def _SIG_MINT_WITH_RECORDS : Nat := 0x39ccf4d0

/-- Selector of safeMintSLDWithRecords(address,uint256,string,string[],string[]). -/
def _SIG_SAFE_MINT_WITH_RECORDS : Nat := 0x27bbd225

/-- Selector of safeMintSLDWithRecords(address,uint256,string,string[],string[],bytes). -/
def _SIG_SAFE_MINT_WITH_RECORDS_DATA : Nat := 0x6a2d2256

/-- The isSupported disjunction of _verifyRelayCall. -/
def isSupportedRelaySig (funcSig : Nat) : Bool :=
  funcSig == _SIG_MINT ||
  funcSig == _SIG_SAFE_MINT ||
  funcSig == _SIG_SAFE_MINT_DATA ||
  funcSig == _SIG_MINT_WITH_RECORDS ||
  funcSig == _SIG_SAFE_MINT_WITH_RECORDS ||
  funcSig == _SIG_SAFE_MINT_WITH_RECORDS_DATA

/-- _verifyRelayCall: pure in the selector, no signer argument. -/
def _verifyRelayCall (funcSig : Nat) : Except MMError Unit :=
  if isSupportedRelaySig funcSig then Except.ok ()
  else Except.error MMError.unsupportedRelayCall

/-- _verifyRelaySigner override: require the recovered signer to hold
the minter role. -/
def _verifyRelaySigner (s : MMState) (signer : Nat) : Except MMError Unit :=
  if s.minters.contains signer then Except.ok ()
  else Except.error MMError.signerIsNotMinter

/-- Modelled from the spec: the Relayer base contract is not under
src/; per the spec, relay verification (a) checks the recovered
signer and then (b) checks the target selector. -/
def verifyRelay (s : MMState) (signer funcSig : Nat) : Except MMError Unit := do
  _verifyRelaySigner s signer
  _verifyRelayCall funcSig

end MintingManager

/-! ## Concrete inputs used by the witness theorems -/

/-- A concrete persisted record used to instantiate the merge theorems. -/
def demoConfig : List (String × Json) :=
  [("meta", Json.str "m"),
   ("contracts", Json.obj
     [("Registry", Json.obj [("address", Json.str "0x1"), ("notes", Json.str "keep")]),
      ("Other", Json.obj [("address", Json.str "0x2")])])]

/-- A concrete persisted contract record used by the rendering theorems. -/
def demoRaw : RawContract :=
  { address := some "0x1"
    implementation := none
    legacyAddresses := some ["0x1"]
    transaction := some ⟨5⟩ }

/-- A concrete keccak function for instantiating the routing theorems;
its values are irrelevant to them. -/
def kc0 : List Nat → Nat := fun _ => 0

/-- A concrete contract state with one minter and the crypto and coin
TLDs registered. -/
def st0 : MMState :=
  { initialized := true
    minters := [1]
    tlds := fun h =>
      if h = CRYPTO_TLD then "crypto" else if h = COIN_TLD then "coin" else ""
    unsExists := fun _ => false
    cryptoResolver := 5
    contractAddr := 9 }

/-- A concrete uninitialized contract state with no registered TLDs. -/
def sFresh : MMState :=
  { initialized := false
    minters := []
    tlds := fun _ => ""
    unsExists := fun _ => false
    cryptoResolver := 5
    contractAddr := 9 }

/-! ## Lemmas about the deep merge -/

theorem lookupField_mergeOne_ne (d : List (String × Json)) (k k2 : String) (v : Json)
    (h : k2 ≠ k) : lookupField (mergeOne d k v) k2 = lookupField d k2 := by
  induction d with
  | nil => simp [mergeOne, lookupField, Ne.symm h]
  | cons p ds ih =>
    obtain ⟨k3, v3⟩ := p
    by_cases hk : k3 = k
    · subst hk
      simp [mergeOne, lookupField, Ne.symm h]
    · simp [mergeOne, hk, lookupField, ih]

theorem lookupField_mergeOne_eq (d : List (String × Json)) (k : String) (v : Json) :
    lookupField (mergeOne d k v) k =
      some (match lookupField d k with
            | none => v
            | some w => mergeJson w v) := by
  induction d with
  | nil => simp [mergeOne, lookupField]
  | cons p ds ih =>
    obtain ⟨k3, v3⟩ := p
    by_cases hk : k3 = k
    · subst hk
      simp [mergeOne, lookupField]
    · simp [mergeOne, hk, lookupField, ih]

theorem mergeFieldsJson_singleton (d : List (String × Json)) (k : String) (v : Json) :
    mergeFieldsJson d [(k, v)] = mergeOne d k v := by
  simp [mergeFieldsJson]

theorem mergeFieldsJson_triple (d : List (String × Json)) (k1 k2 k3 : String)
    (v1 v2 v3 : Json) :
    mergeFieldsJson d [(k1, v1), (k2, v2), (k3, v3)] =
      mergeOne (mergeOne (mergeOne d k1 v1) k2 v2) k3 v3 := by
  simp [mergeFieldsJson]

/-! ## C9: the frame of saveContractConfig -/

/-- C9: saveContractConfig writes back the deep merge of the persisted
record with the one-contract patch; every contract entry other than
the named one, and every field of the named entry other than
address, implementation and transaction, is unchanged by the write. -/
theorem saveContractConfig_frame (cf : List (String × Json)) (name : String)
    (a impl tx : Json) :
    (∀ k, k ≠ "contracts" →
      getObjField (saveContractConfig (Json.obj cf) name a impl tx) k = lookupField cf k) ∧
    (∀ oldCs, lookupField cf "contracts" = some (Json.obj oldCs) →
      ∃ newCs,
        getObjField (saveContractConfig (Json.obj cf) name a impl tx) "contracts"
          = some (Json.obj newCs) ∧
        (∀ k, k ≠ name → lookupField newCs k = lookupField oldCs k) ∧
        (∀ oldEntry, lookupField oldCs name = some (Json.obj oldEntry) →
          ∃ newEntry, lookupField newCs name = some (Json.obj newEntry) ∧
            ∀ f, f ≠ "address" → f ≠ "implementation" → f ≠ "transaction" →
              lookupField newEntry f = lookupField oldEntry f)) := by
  have hsave : saveContractConfig (Json.obj cf) name a impl tx
      = Json.obj (mergeOne cf "contracts" (Json.obj [(name,
          Json.obj [("address", a), ("implementation", impl), ("transaction", tx)])])) := by
    simp [saveContractConfig, contractPatch, mergeJson, mergeFieldsJson_singleton]
  constructor
  · intro k hk
    rw [hsave]
    exact lookupField_mergeOne_ne cf "contracts" k _ hk
  · intro oldCs hcs
    rw [hsave]
    refine ⟨mergeOne oldCs name
      (Json.obj [("address", a), ("implementation", impl), ("transaction", tx)]), ?_, ?_, ?_⟩
    · show lookupField (mergeOne cf "contracts" _) "contracts" = _
      rw [lookupField_mergeOne_eq, hcs]
      simp [mergeJson, mergeFieldsJson_singleton]
    · intro k hk
      exact lookupField_mergeOne_ne oldCs name k _ hk
    · intro oldEntry hentry
      refine ⟨mergeOne (mergeOne (mergeOne oldEntry "address" a) "implementation" impl)
        "transaction" tx, ?_, ?_⟩
      · rw [lookupField_mergeOne_eq, hentry]
        simp [mergeJson, mergeFieldsJson_triple]
      · intro f hf1 hf2 hf3
        rw [lookupField_mergeOne_ne _ _ _ _ hf3,
            lookupField_mergeOne_ne _ _ _ _ hf2,
            lookupField_mergeOne_ne _ _ _ _ hf1]

theorem saveContractConfig_frame_witness :
    ("meta" ≠ "contracts") ∧
    (lookupField demoConfig "contracts").isSome = true ∧
    getObjField (saveContractConfig (Json.obj demoConfig) "Registry"
      (Json.str "0xa") Json.null (Json.num 7)) "meta" = some (Json.str "m") := by
  have h := saveContractConfig_frame demoConfig "Registry" (Json.str "0xa") Json.null (Json.num 7)
  exact ⟨by decide, rfl, h.1 "meta" (by decide)⟩

/-! ## C7: the rendered network view -/

/-- C7 counterexample: a persisted record carrying legacyAddresses is
rendered with an empty legacyAddresses list, so the rendered view
does not reflect the record. -/
theorem renderContract_legacyAddresses_counterexample :
    demoRaw.legacyAddresses = some ["0x1"] ∧
    (renderContract demoRaw).legacyAddresses = [] := by
  exact ⟨rfl, rfl⟩

/-- C7 (amended): getNetworkConfig renders each record as address,
implementation, an always-empty legacyAddresses list, and a
deploymentBlock that is the padded hex of the receipt block number
when a transaction is recorded and the sentinel 0x0 otherwise; the
result is keyed by the single chain id of the session. -/
theorem getNetworkConfig_render (chainId : Nat) (cs : List (String × RawContract)) :
    getNetworkConfig chainId cs
      = [(chainId, cs.map fun p => (p.1, renderContract p.2))] ∧
    ((getNetworkConfig chainId cs).map Prod.fst = [chainId]) ∧
    (∀ v : RawContract, (renderContract v).legacyAddresses = []) ∧
    (∀ v : RawContract, (renderContract v).address = v.address ∧
      (renderContract v).implementation = v.implementation) ∧
    (∀ (v : RawContract) (t : TxReceipt), v.transaction = some t →
      (renderContract v).deploymentBlock = bnToHexString t.blockNumber) ∧
    (∀ v : RawContract, v.transaction = none →
      (renderContract v).deploymentBlock = "0x0") := by
  refine ⟨rfl, rfl, fun v => rfl, fun v => ⟨rfl, rfl⟩, ?_, ?_⟩
  · intro v t h
    simp [renderContract, h]
  · intro v h
    simp [renderContract, h]

theorem getNetworkConfig_render_witness :
    getNetworkConfig 31337 [("Registry", demoRaw)]
      = [(31337, [("Registry", renderContract demoRaw)])] ∧
    (renderContract demoRaw).deploymentBlock = bnToHexString 5 ∧
    bnToHexString 5 = "0x05" := by
  have h := getNetworkConfig_render 31337 [("Registry", demoRaw)]
  exact ⟨h.1, h.2.2.2.2.1 demoRaw ⟨5⟩ rfl, by rfl⟩

/-! ## C8: the task runner -/

theorem executeEvents_eq (tasks : List DTask) (i : Nat) (tags : List String) :
    executeEvents tasks i tags =
      ((tasks.enumFrom i).filter fun p => taskSelected tags p.2).bind
        fun p => [ExecEvent.deps p.1, ExecEvent.run p.1] := by
  induction tasks generalizing i with
  | nil => simp [executeEvents]
  | cons t rest ih =>
    by_cases h : taskSelected tags t <;>
      simp [executeEvents, List.enumFrom, h, ih]

theorem executeEvents_run_mem (tasks : List DTask) (i j : Nat) (tags : List String) :
    ExecEvent.run j ∈ executeEvents tasks i tags ↔
      ∃ k t, tasks.get? k = some t ∧ i + k = j ∧ taskSelected tags t = true := by
  induction tasks generalizing i with
  | nil => simp [executeEvents]
  | cons t rest ih =>
    by_cases h : taskSelected tags t
    · rw [executeEvents, if_pos h, List.mem_cons, List.mem_cons]
      constructor
      · rintro (he | he | he)
        · exact ExecEvent.noConfusion he
        · obtain rfl : j = i := by injection he
          exact ⟨0, t, rfl, by omega, h⟩
        · obtain ⟨k, t2, hk, hij, hsel⟩ := (ih (i + 1)).mp he
          exact ⟨k + 1, t2, hk, by omega, hsel⟩
      · rintro ⟨k, t2, hk, hij, hsel⟩
        cases k with
        | zero =>
          right; left
          obtain rfl : t = t2 := by injection hk
          have : j = i := by omega
          rw [this]
        | succ k2 =>
          right; right
          exact (ih (i + 1)).mpr ⟨k2, t2, hk, by omega, hsel⟩
    · rw [executeEvents, if_neg h, ih (i + 1)]
      constructor
      · rintro ⟨k, t2, hk, hij, hsel⟩
        exact ⟨k + 1, t2, hk, by omega, hsel⟩
      · rintro ⟨k, t2, hk, hij, hsel⟩
        cases k with
        | zero =>
          obtain rfl : t = t2 := by injection hk
          exact absurd hsel (by simpa using h)
        | succ k2 =>
          exact ⟨k2, t2, hk, by omega, hsel⟩

/-- C8: execute runs no task when tags is omitted or empty; with
requested tags it produces, in registration order, a dependency
resolution immediately followed by a run for exactly the tasks whose
tag list contains some lower-cased requested tag. -/
theorem execute_spec (tasks : List DTask) (tg : List String) :
    execute tasks none = [] ∧
    execute tasks (some []) = [] ∧
    execute tasks (some tg) =
      ((tasks.enumFrom 0).filter fun p => taskSelected tg p.2).bind
        (fun p => [ExecEvent.deps p.1, ExecEvent.run p.1]) ∧
    (∀ i, ExecEvent.run i ∈ execute tasks (some tg) ↔
      ∃ t, tasks.get? i = some t ∧ taskSelected tg t = true) := by
  refine ⟨?_, ?_, ?_, ?_⟩
  · rw [execute, Option.getD_none, executeEvents_eq]
    simp [taskSelected]
  · rw [execute, Option.getD_some, executeEvents_eq]
    simp [taskSelected]
  · rw [execute, Option.getD_some, executeEvents_eq]
  · intro i
    rw [execute, Option.getD_some, executeEvents_run_mem]
    constructor
    · rintro ⟨k, t, hk, hik, hsel⟩
      have hki : k = i := by omega
      rw [hki] at hk
      exact ⟨t, hk, hsel⟩
    · rintro ⟨t, hk, hsel⟩
      exact ⟨i, t, hk, by omega, hsel⟩

theorem execute_spec_witness :
    execute [⟨["cns"]⟩, ⟨["uns"]⟩] (some ["UNS"]) = [ExecEvent.deps 1, ExecEvent.run 1] ∧
    execute [⟨["cns"]⟩, ⟨["uns"]⟩] none = [] := by
  have h := execute_spec [⟨["cns"]⟩, ⟨["uns"]⟩] ["UNS"]
  refine ⟨?_, h.1⟩
  rw [h.2.2.1]
  rfl

/-! ## Lemmas about the free label rewrite -/

theorem freeSLD_ne (label : String) : _freeSLDLabel label ≠ label := by
  intro h
  have h2 := congrArg String.length h
  rw [_freeSLDLabel, String.length_append,
      show ("udtestdev-" : String).length = 10 from rfl] at h2
  omega

theorem freeSLD_ne_empty (label : String) : _freeSLDLabel label ≠ "" := by
  intro h
  have h2 := congrArg String.length h
  rw [_freeSLDLabel, String.length_append,
      show ("udtestdev-" : String).length = 10 from rfl,
      show ("" : String).length = 0 from rfl] at h2
  omega

/-! ## C1: routing between the legacy subsystem and the UNS registry -/

/-- C1: with a registered TLD and a non-empty effective label, every
mint-family entry point routes on the TLD: the reserved crypto hash
delegates to the legacy CryptoMinter subsystem carrying only the
(effective) label, and any other TLD mints on the UNS registry the
token id canonicalHash(tld, effective label); the effective label is
the supplied label for the six minter-gated entry points and the
prefixed label for the claim family. -/
theorem mint_routing (kc : List Nat → Nat) (s : MMState) (caller toA tld : Nat)
    (label : String) (keys values : List String) (data : List Nat)
    (hm : s.minters.contains caller = true)
    (ht : s.tlds tld ≠ "")
    (hl : label ≠ "") :
    (tld = CRYPTO_TLD →
      mintSLD kc s caller toA tld label = Except.ok [Ev.cryptoMintSLD toA label] ∧
      safeMintSLD kc s caller toA tld label = Except.ok [Ev.cryptoSafeMintSLD toA label []] ∧
      safeMintSLDData kc s caller toA tld label data
        = Except.ok [Ev.cryptoSafeMintSLD toA label data] ∧
      mintSLDWithRecords kc s caller toA tld label keys values =
        Except.ok (Ev.cryptoMintSLDWithResolver toA label s.cryptoResolver ::
          (if keys.length > 0
           then [Ev.resolverPreconfigure keys values (canonicalHash kc tld label)]
           else [])) ∧
      safeMintSLDWithRecords kc s caller toA tld label keys values =
        Except.ok (Ev.cryptoSafeMintSLDWithResolver toA label s.cryptoResolver [] ::
          (if keys.length > 0
           then [Ev.resolverPreconfigure keys values (canonicalHash kc tld label)]
           else [])) ∧
      safeMintSLDWithRecordsData kc s caller toA tld label keys values data =
        Except.ok (Ev.cryptoSafeMintSLDWithResolver toA label s.cryptoResolver data ::
          (if keys.length > 0
           then [Ev.resolverPreconfigure keys values (canonicalHash kc tld label)]
           else [])) ∧
      claim kc s caller tld label = Except.ok [Ev.cryptoMintSLD caller (_freeSLDLabel label)] ∧
      claimTo kc s caller toA tld label = Except.ok [Ev.cryptoMintSLD toA (_freeSLDLabel label)] ∧
      claimToWithRecords kc s caller toA tld label keys values =
        Except.ok (Ev.cryptoMintSLDWithResolver toA (_freeSLDLabel label) s.cryptoResolver ::
          (if keys.length > 0
           then [Ev.resolverPreconfigure keys values
                  (canonicalHash kc tld (_freeSLDLabel label))]
           else []))) ∧
    (tld ≠ CRYPTO_TLD →
      mintSLD kc s caller toA tld label =
        Except.ok [Ev.unsMint toA (canonicalHash kc tld label) (_uri s tld label)] ∧
      safeMintSLD kc s caller toA tld label =
        Except.ok [Ev.unsSafeMint toA (canonicalHash kc tld label) (_uri s tld label) []] ∧
      safeMintSLDData kc s caller toA tld label data =
        Except.ok [Ev.unsSafeMint toA (canonicalHash kc tld label) (_uri s tld label) data] ∧
      mintSLDWithRecords kc s caller toA tld label keys values =
        Except.ok [Ev.unsMintWithRecords toA (canonicalHash kc tld label)
          (_uri s tld label) keys values] ∧
      safeMintSLDWithRecords kc s caller toA tld label keys values =
        Except.ok [Ev.unsSafeMintWithRecords toA (canonicalHash kc tld label)
          (_uri s tld label) keys values []] ∧
      safeMintSLDWithRecordsData kc s caller toA tld label keys values data =
        Except.ok [Ev.unsSafeMintWithRecords toA (canonicalHash kc tld label)
          (_uri s tld label) keys values data] ∧
      claim kc s caller tld label =
        Except.ok [Ev.unsMint caller (canonicalHash kc tld (_freeSLDLabel label))
          (_uri s tld (_freeSLDLabel label))] ∧
      claimTo kc s caller toA tld label =
        Except.ok [Ev.unsMint toA (canonicalHash kc tld (_freeSLDLabel label))
          (_uri s tld (_freeSLDLabel label))] ∧
      claimToWithRecords kc s caller toA tld label keys values =
        Except.ok (Ev.unsMintWithRecords toA (canonicalHash kc tld (_freeSLDLabel label))
          (_uri s tld (_freeSLDLabel label)) keys values :: [])) := by
  have hm2 : caller ∈ s.minters := by simpa using hm
  constructor
  · intro hC
    subst hC
    refine ⟨?_, ?_, ?_, ?_, ?_, ?_, ?_, ?_, ?_⟩ <;>
      simp [mintSLD, safeMintSLD, safeMintSLDData, mintSLDWithRecords,
        safeMintSLDWithRecords, safeMintSLDWithRecordsData, claim, claimTo,
        claimToWithRecords, onlyMinter, validTld, _mintSLD, _safeMintSLD,
        _mintSLDWithRecords, _safeMintSLDWithRecords, _childId, hm2, ht, hl,
        freeSLD_ne_empty, Bind.bind, Except.bind]
  · intro hC
    refine ⟨?_, ?_, ?_, ?_, ?_, ?_, ?_, ?_, ?_⟩ <;>
      simp [mintSLD, safeMintSLD, safeMintSLDData, mintSLDWithRecords,
        safeMintSLDWithRecords, safeMintSLDWithRecordsData, claim, claimTo,
        claimToWithRecords, onlyMinter, validTld, _mintSLD, _safeMintSLD,
        _mintSLDWithRecords, _safeMintSLDWithRecords, _childId, hm2, ht, hl, hC,
        freeSLD_ne_empty, Bind.bind, Except.bind]

theorem mint_routing_witness :
    mintSLD kc0 st0 1 2 COIN_TLD "abc" =
      Except.ok [Ev.unsMint 2 (canonicalHash kc0 COIN_TLD "abc") (_uri st0 COIN_TLD "abc")] ∧
    mintSLD kc0 st0 1 2 CRYPTO_TLD "abc" = Except.ok [Ev.cryptoMintSLD 2 "abc"] := by
  have h1 := mint_routing kc0 st0 1 2 COIN_TLD "abc" [] [] [] rfl (by decide) (by decide)
  have h2 := mint_routing kc0 st0 1 2 CRYPTO_TLD "abc" [] [] [] rfl (by decide) (by decide)
  exact ⟨(h1.2 (by decide)).1, (h2.1 rfl).1⟩

/-! ## C2: the empty-label check -/

/-- C2 counterexample: with the crypto TLD registered, mintSLD with an
empty label succeeds on the legacy path (the label-empty check is
never reached there), and claim with an empty label mints the
non-empty prefixed label instead of failing. -/
theorem labelEmpty_counterexample :
    mintSLD kc0 st0 1 2 CRYPTO_TLD "" = Except.ok [Ev.cryptoMintSLD 2 ""] ∧
    claim kc0 st0 7 COIN_TLD "" = Except.ok
      [Ev.unsMint 7 (canonicalHash kc0 COIN_TLD (_freeSLDLabel ""))
        (_uri st0 COIN_TLD (_freeSLDLabel ""))] := by
  constructor <;> rfl

/-- C2 (amended): with an empty label, the six minter-gated entry
points fail with labelEmpty whenever the token id is computed: always
on the primary-registry path, and on the legacy crypto path only for
the withRecords variants (the plain variants delegate to the legacy
minter without any label check); the claim family never fails with
labelEmpty because the prefixed label is non-empty. -/
theorem labelEmpty_semantics (kc : List Nat → Nat) (s : MMState) (caller toA tld : Nat)
    (keys values : List String) (data : List Nat)
    (hm : s.minters.contains caller = true)
    (ht : s.tlds tld ≠ "") :
    (tld ≠ CRYPTO_TLD →
      mintSLD kc s caller toA tld "" = Except.error MMError.labelEmpty ∧
      safeMintSLD kc s caller toA tld "" = Except.error MMError.labelEmpty ∧
      safeMintSLDData kc s caller toA tld "" data = Except.error MMError.labelEmpty ∧
      mintSLDWithRecords kc s caller toA tld "" keys values = Except.error MMError.labelEmpty ∧
      safeMintSLDWithRecords kc s caller toA tld "" keys values
        = Except.error MMError.labelEmpty ∧
      safeMintSLDWithRecordsData kc s caller toA tld "" keys values data
        = Except.error MMError.labelEmpty) ∧
    (tld = CRYPTO_TLD →
      mintSLD kc s caller toA tld "" = Except.ok [Ev.cryptoMintSLD toA ""] ∧
      safeMintSLD kc s caller toA tld "" = Except.ok [Ev.cryptoSafeMintSLD toA "" []] ∧
      safeMintSLDData kc s caller toA tld "" data
        = Except.ok [Ev.cryptoSafeMintSLD toA "" data] ∧
      mintSLDWithRecords kc s caller toA tld "" keys values = Except.error MMError.labelEmpty ∧
      safeMintSLDWithRecords kc s caller toA tld "" keys values
        = Except.error MMError.labelEmpty ∧
      safeMintSLDWithRecordsData kc s caller toA tld "" keys values data
        = Except.error MMError.labelEmpty) ∧
    (claim kc s caller tld "" ≠ Except.error MMError.labelEmpty ∧
     claimTo kc s caller toA tld "" ≠ Except.error MMError.labelEmpty ∧
     claimToWithRecords kc s caller toA tld "" keys values
       ≠ Except.error MMError.labelEmpty) := by
  have hm2 : caller ∈ s.minters := by simpa using hm
  refine ⟨?_, ?_, ?_⟩
  · intro hC
    refine ⟨?_, ?_, ?_, ?_, ?_, ?_⟩ <;>
      simp [mintSLD, safeMintSLD, safeMintSLDData, mintSLDWithRecords,
        safeMintSLDWithRecords, safeMintSLDWithRecordsData, onlyMinter, validTld,
        _mintSLD, _safeMintSLD, _mintSLDWithRecords, _safeMintSLDWithRecords,
        _childId, hm2, ht, hC, Bind.bind, Except.bind]
  · intro hC
    subst hC
    refine ⟨?_, ?_, ?_, ?_, ?_, ?_⟩ <;>
      simp [mintSLD, safeMintSLD, safeMintSLDData, mintSLDWithRecords,
        safeMintSLDWithRecords, safeMintSLDWithRecordsData, onlyMinter, validTld,
        _mintSLD, _safeMintSLD, _mintSLDWithRecords, _safeMintSLDWithRecords,
        _childId, hm2, ht, Bind.bind, Except.bind]
  · by_cases hC : tld = CRYPTO_TLD
    · subst hC
      refine ⟨?_, ?_, ?_⟩ <;>
        simp [claim, claimTo, claimToWithRecords, validTld, _mintSLD,
          _mintSLDWithRecords, _childId, ht, freeSLD_ne_empty, Bind.bind, Except.bind]
    · refine ⟨?_, ?_, ?_⟩ <;>
        simp [claim, claimTo, claimToWithRecords, validTld, _mintSLD,
          _mintSLDWithRecords, _childId, ht, hC, freeSLD_ne_empty, Bind.bind, Except.bind]

theorem labelEmpty_semantics_witness :
    mintSLDWithRecords kc0 st0 1 2 COIN_TLD "" [] [] = Except.error MMError.labelEmpty ∧
    mintSLDWithRecords kc0 st0 1 2 CRYPTO_TLD "" [] [] = Except.error MMError.labelEmpty ∧
    claim kc0 st0 1 COIN_TLD "" ≠ Except.error MMError.labelEmpty := by
  have h1 := labelEmpty_semantics kc0 st0 1 2 COIN_TLD [] [] [] rfl (by decide)
  have h2 := labelEmpty_semantics kc0 st0 1 2 CRYPTO_TLD [] [] [] rfl (by decide)
  exact ⟨(h1.1 (by decide)).2.2.2.1, (h2.2.1 rfl).2.2.2.1, h1.2.2.1⟩

/-! ## C3: relay verification -/

/-- C3 counterexample: for a signer without the minter role and a
selector outside the allow-list, relay verification fails with the
signer reason, not the unsupported-relay-call reason, so the claimed
failure reason does not hold for every signer. -/
theorem relay_reason_counterexample :
    isSupportedRelaySig 0 = false ∧
    st0.minters.contains 2 = false ∧
    verifyRelay st0 2 0 = Except.error MMError.signerIsNotMinter ∧
    MMError.signerIsNotMinter ≠ MMError.unsupportedRelayCall := by
  exact ⟨rfl, rfl, rfl, by decide⟩

/-- C3 (amended): for every signer that passes the signer check (in
particular every holder of the minter role) and every selector
outside the six-member allow-list, relay verification fails with the
unsupported-relay-call reason; the selector check itself takes no
signer and rejects such a selector unconditionally. -/
theorem relay_unsupported_semantics (s : MMState) (signer funcSig : Nat)
    (hs : s.minters.contains signer = true)
    (hf : isSupportedRelaySig funcSig = false) :
    verifyRelay s signer funcSig = Except.error MMError.unsupportedRelayCall ∧
    _verifyRelayCall funcSig = Except.error MMError.unsupportedRelayCall := by
  have hs2 : signer ∈ s.minters := by simpa using hs
  constructor <;>
    simp [verifyRelay, _verifyRelaySigner, _verifyRelayCall, hs2, hf,
      Bind.bind, Except.bind]

theorem relay_unsupported_semantics_witness :
    st0.minters.contains 1 = true ∧
    isSupportedRelaySig 0 = false ∧
    verifyRelay st0 1 0 = Except.error MMError.unsupportedRelayCall := by
  have h := relay_unsupported_semantics st0 1 0 rfl rfl
  exact ⟨rfl, rfl, h.1⟩

/-! ## C4: the claim family mints only the prefixed label -/

/-- C4: for every caller and registered TLD, the claim entry points
mint under the prefixed label udtestdev- ++ label, which differs from
the raw label: the legacy path receives the prefixed label and the
primary path mints the token id of the prefixed label. -/
theorem claim_prefixed_label (kc : List Nat → Nat) (s : MMState) (caller toA tld : Nat)
    (label : String) (keys values : List String)
    (ht : s.tlds tld ≠ "") :
    _freeSLDLabel label ≠ label ∧
    (tld = CRYPTO_TLD →
      claim kc s caller tld label
        = Except.ok [Ev.cryptoMintSLD caller (_freeSLDLabel label)] ∧
      claimTo kc s caller toA tld label
        = Except.ok [Ev.cryptoMintSLD toA (_freeSLDLabel label)] ∧
      claimToWithRecords kc s caller toA tld label keys values =
        Except.ok (Ev.cryptoMintSLDWithResolver toA (_freeSLDLabel label) s.cryptoResolver ::
          (if keys.length > 0
           then [Ev.resolverPreconfigure keys values
                  (canonicalHash kc tld (_freeSLDLabel label))]
           else []))) ∧
    (tld ≠ CRYPTO_TLD →
      claim kc s caller tld label =
        Except.ok [Ev.unsMint caller (canonicalHash kc tld (_freeSLDLabel label))
          (_uri s tld (_freeSLDLabel label))] ∧
      claimTo kc s caller toA tld label =
        Except.ok [Ev.unsMint toA (canonicalHash kc tld (_freeSLDLabel label))
          (_uri s tld (_freeSLDLabel label))] ∧
      claimToWithRecords kc s caller toA tld label keys values =
        Except.ok [Ev.unsMintWithRecords toA (canonicalHash kc tld (_freeSLDLabel label))
          (_uri s tld (_freeSLDLabel label)) keys values]) := by
  refine ⟨freeSLD_ne label, ?_, ?_⟩
  · intro hC
    subst hC
    refine ⟨?_, ?_, ?_⟩ <;>
      simp [claim, claimTo, claimToWithRecords, validTld, _mintSLD,
        _mintSLDWithRecords, _childId, ht, freeSLD_ne_empty, Bind.bind, Except.bind]
  · intro hC
    refine ⟨?_, ?_, ?_⟩ <;>
      simp [claim, claimTo, claimToWithRecords, validTld, _mintSLD,
        _mintSLDWithRecords, _childId, ht, hC, freeSLD_ne_empty, Bind.bind, Except.bind]

theorem claim_prefixed_label_witness :
    _freeSLDLabel "abc" ≠ "abc" ∧
    claim kc0 st0 7 COIN_TLD "abc" =
      Except.ok [Ev.unsMint 7 (canonicalHash kc0 COIN_TLD (_freeSLDLabel "abc"))
        (_uri st0 COIN_TLD (_freeSLDLabel "abc"))] := by
  have h := claim_prefixed_label kc0 st0 7 2 COIN_TLD "abc" [] [] (by decide)
  exact ⟨h.1, (h.2.2 (by decide)).1⟩

/-! ## C6: the validTld guard -/

/-- C6 counterexample: a caller without the minter role calling
mintSLD with an unregistered TLD fails with the caller-role reason,
not the TLD reason, so the claimed failure reason does not hold for
every caller. -/
theorem tldNotValid_counterexample :
    st0.tlds 99 = "" ∧
    st0.minters.contains 2 = false ∧
    mintSLD kc0 st0 2 3 99 "abc" = Except.error MMError.callerIsNotMinter ∧
    MMError.callerIsNotMinter ≠ MMError.tldNotValid := by
  exact ⟨rfl, rfl, rfl, by decide⟩

/-- C6 (amended): for every TLD hash with no stored label, every
minter-gated entry point called by a minter fails with tldNotValid,
and every claim entry point fails with tldNotValid for every caller,
for every recipient and label. -/
theorem tldNotValid_semantics (kc : List Nat → Nat) (s : MMState) (caller toA tld : Nat)
    (label : String) (keys values : List String) (data : List Nat)
    (ht : s.tlds tld = "") :
    (s.minters.contains caller = true →
      mintSLD kc s caller toA tld label = Except.error MMError.tldNotValid ∧
      safeMintSLD kc s caller toA tld label = Except.error MMError.tldNotValid ∧
      safeMintSLDData kc s caller toA tld label data = Except.error MMError.tldNotValid ∧
      mintSLDWithRecords kc s caller toA tld label keys values
        = Except.error MMError.tldNotValid ∧
      safeMintSLDWithRecords kc s caller toA tld label keys values
        = Except.error MMError.tldNotValid ∧
      safeMintSLDWithRecordsData kc s caller toA tld label keys values data
        = Except.error MMError.tldNotValid) ∧
    (claim kc s caller tld label = Except.error MMError.tldNotValid ∧
     claimTo kc s caller toA tld label = Except.error MMError.tldNotValid ∧
     claimToWithRecords kc s caller toA tld label keys values
       = Except.error MMError.tldNotValid) := by
  constructor
  · intro hm
    have hm2 : caller ∈ s.minters := by simpa using hm
    refine ⟨?_, ?_, ?_, ?_, ?_, ?_⟩ <;>
      simp [mintSLD, safeMintSLD, safeMintSLDData, mintSLDWithRecords,
        safeMintSLDWithRecords, safeMintSLDWithRecordsData, onlyMinter, validTld,
        hm2, ht, Bind.bind, Except.bind]
  · refine ⟨?_, ?_, ?_⟩ <;>
      simp [claim, claimTo, claimToWithRecords, validTld, ht, Bind.bind, Except.bind]

theorem tldNotValid_semantics_witness :
    st0.tlds 99 = "" ∧
    mintSLD kc0 st0 1 3 99 "abc" = Except.error MMError.tldNotValid ∧
    claim kc0 st0 4 99 "abc" = Except.error MMError.tldNotValid := by
  have h1 := tldNotValid_semantics kc0 st0 1 3 99 "abc" [] [] [] rfl
  have h2 := tldNotValid_semantics kc0 st0 4 3 99 "abc" [] [] [] rfl
  exact ⟨rfl, (h1.1 rfl).1, h2.2.1⟩

/-! ## C5: initialization -/

/-- C5: on a fresh state, initialize registers exactly the three TLDs
crypto, wallet and coin; it mints wallet and coin to the burn address
exactly when the corresponding id does not yet exist in the UNS
registry; and a second initialization is rejected by the initializer
guard, so it never re-mints an existing id. -/
theorem init_registers_three_tlds (s : MMState)
    (h0 : s.initialized = false) (hfresh : ∀ h, s.tlds h = "") :
    ∃ s2 evs, initializeMM s = Except.ok (s2, evs) ∧
      (∀ h, s2.tlds h ≠ "" ↔ (h = CRYPTO_TLD ∨ h = WALLET_TLD ∨ h = COIN_TLD)) ∧
      s2.tlds CRYPTO_TLD = "crypto" ∧
      s2.tlds WALLET_TLD = "wallet" ∧
      s2.tlds COIN_TLD = "coin" ∧
      evs = (if s.unsExists WALLET_TLD then []
             else [Ev.unsMint BURN_ADDR WALLET_TLD "wallet"]) ++
            (if s.unsExists COIN_TLD then []
             else [Ev.unsMint BURN_ADDR COIN_TLD "coin"]) ∧
      (∀ a tokenId u, Ev.unsMint a tokenId u ∈ evs →
        a = BURN_ADDR ∧ s.unsExists tokenId = false) ∧
      initializeMM s2 = Except.error MMError.alreadyInitialized := by
  rw [initializeMM, h0]
  simp only [Bool.false_eq_true, if_false]
  refine ⟨_, _, rfl, ?_, ?_, ?_, ?_, rfl, ?_, ?_⟩
  · intro h
    by_cases hc : h = CRYPTO_TLD
    · simp [hc]
    · by_cases hw : h = WALLET_TLD
      · simp [hc, hw]
        decide
      · by_cases hcn : h = COIN_TLD
        · simp [hc, hw, hcn]
          decide
        · simp [hc, hw, hcn, hfresh h]
  · rfl
  · rfl
  · rfl
  · intro a tokenId u hmem
    by_cases hW : s.unsExists WALLET_TLD <;> by_cases hCn : s.unsExists COIN_TLD <;>
      simp [hW, hCn] at hmem
    · obtain ⟨rfl, rfl, rfl⟩ := hmem
      exact ⟨rfl, by simpa using hCn⟩
    · obtain ⟨rfl, rfl, rfl⟩ := hmem
      exact ⟨rfl, by simpa using hW⟩
    · rcases hmem with ⟨rfl, rfl, rfl⟩ | ⟨rfl, rfl, rfl⟩
      · exact ⟨rfl, by simpa using hW⟩
      · exact ⟨rfl, by simpa using hCn⟩
  · rw [initializeMM]
    rfl

theorem init_registers_three_tlds_witness :
    sFresh.initialized = false ∧
    (∃ s2 evs, initializeMM sFresh = Except.ok (s2, evs) ∧
      s2.tlds CRYPTO_TLD = "crypto" ∧
      evs = [Ev.unsMint BURN_ADDR WALLET_TLD "wallet", Ev.unsMint BURN_ADDR COIN_TLD "coin"]) := by
  obtain ⟨s2, evs, h1, _, h3, _, _, h6, _⟩ :=
    init_registers_three_tlds sFresh rfl (fun _ => rfl)
  exact ⟨rfl, s2, evs, h1, h3, by rw [h6]; rfl⟩

/-! ## C10: the self-granted minter role -/

/-- C10: after a successful initialize, the contract address itself
holds the minter role, so relayed mint-family calls executed by the
contract pass the minter check. -/
theorem init_self_minter (s s2 : MMState) (evs : List Ev)
    (h : initializeMM s = Except.ok (s2, evs)) :
    s2.minters.contains s.contractAddr = true := by
  rw [initializeMM] at h
  by_cases h0 : s.initialized
  · rw [if_pos h0] at h
    exact Except.noConfusion h
  · rw [if_neg h0] at h
    injection h with h2
    injection h2 with h3 h4
    rw [← h3]
    simp

theorem init_self_minter_witness :
    ∃ s2 evs, initializeMM sFresh = Except.ok (s2, evs) ∧
      s2.minters.contains sFresh.contractAddr = true := by
  refine ⟨_, _, rfl, init_self_minter sFresh _ _ rfl⟩

end UNS
